import Mathlib

/-!
Shallow embedding of the programmatic SEO tool's bulk page generation
pipeline (backend/utils/templating.js, backend/utils/csv.js,
backend/routes/admin.js, backend/routes/pages.js, backend/models/Page.js).

Strings are modelled as `List Char`.  JavaScript objects appearing as
rows are modelled as association lists in key-enumeration order
(`Object.keys` enumerates string keys in insertion order, which is the
order of the association list).
-/

namespace SeoTool

/-- A CSV row: normalized field names mapped to string values, in key
enumeration order (mirrors a plain JS object). -/
abbrev Row := List (List Char × List Char)

/-- The opening brace character of a `\x7bfield\x7d` placeholder token. -/
def lbrace : Char := Char.ofNat 123

/-- The closing brace character of a placeholder token. -/
def rbrace : Char := Char.ofNat 125

/-- The placeholder token for a field: brace, field name, brace.  This is
the literal text matched by `new RegExp` built in `fill`
(templating.js line 14); field names coming from normalized CSV headers
contain no regex metacharacters, so the regex matches exactly this
literal. -/
def token (key : List Char) : List Char := lbrace :: (key ++ [rbrace])

/-- `startsWithL pat s` is true when `pat` is a prefix of `s`. -/
def startsWithL : List Char → List Char → Bool
  | [], _ => true
  | _ :: _, [] => false
  | p :: ps, c :: cs => p == c && startsWithL ps cs

/-- Structural worker for `replaceAll`; `fuel` bounds the number of
scanning steps so that the recursion is structural (hence kernel
reducible).  `replaceAll` always calls it with `fuel = s.length`, which
is enough because every step consumes at least one character. -/
def replaceAllAux (pat val : List Char) : Nat → List Char → List Char
  | _, [] => []
  | 0, c :: rest => c :: rest
  | fuel + 1, c :: rest =>
    if pat ≠ [] ∧ startsWithL pat (c :: rest) then
      val ++ replaceAllAux pat val fuel (rest.drop (pat.length - 1))
    else
      c :: replaceAllAux pat val fuel rest

/-- `String.prototype.replace` with a global literal pattern: every
non-overlapping occurrence of `pat` in `s`, scanning left to right, is
replaced by `val`; the replacement text is not re-scanned within the
same call (JS `replace` semantics for `str.replace(regex, val)` with the
`g` flag). -/
def replaceAll (pat val s : List Char) : List Char :=
  replaceAllAux pat val s.length s

theorem replaceAllAux_congr (pat val : List Char) :
    ∀ (fuel₁ fuel₂ : Nat) (s : List Char), s.length ≤ fuel₁ →
      s.length ≤ fuel₂ →
      replaceAllAux pat val fuel₁ s = replaceAllAux pat val fuel₂ s := by
  intro fuel₁
  induction fuel₁ with
  | zero =>
    intro fuel₂ s hs₁ _
    have : s = [] := List.length_eq_zero.mp (Nat.le_zero.mp hs₁)
    subst this
    cases fuel₂ <;> rfl
  | succ f ih =>
    intro fuel₂ s hs₁ hs₂
    cases s with
    | nil => cases fuel₂ <;> rfl
    | cons c rest =>
      cases fuel₂ with
      | zero => simp at hs₂
      | succ f₂ =>
        simp only [replaceAllAux]
        split
        · have hd : (rest.drop (pat.length - 1)).length ≤ rest.length := by
            simp only [List.length_drop]
            omega
          have h₁ : rest.length ≤ f := Nat.le_of_succ_le_succ hs₁
          have h₂ : rest.length ≤ f₂ := Nat.le_of_succ_le_succ hs₂
          rw [ih _ _ (Nat.le_trans hd h₁) (Nat.le_trans hd h₂)]
        · have h₁ : rest.length ≤ f := Nat.le_of_succ_le_succ hs₁
          have h₂ : rest.length ≤ f₂ := Nat.le_of_succ_le_succ hs₂
          rw [ih _ _ h₁ h₂]

theorem replaceAll_nil (pat val : List Char) : replaceAll pat val [] = [] :=
  rfl

theorem replaceAll_cons (pat val : List Char) (c : Char) (rest : List Char) :
    replaceAll pat val (c :: rest) =
      if pat ≠ [] ∧ startsWithL pat (c :: rest) then
        val ++ replaceAll pat val (rest.drop (pat.length - 1))
      else
        c :: replaceAll pat val rest := by
  show replaceAllAux pat val (rest.length + 1) (c :: rest) = _
  simp only [replaceAllAux]
  split
  · rw [replaceAllAux_congr pat val rest.length
      (rest.drop (pat.length - 1)).length (rest.drop (pat.length - 1))
      (by simp only [List.length_drop]; omega) (Nat.le_refl _)]
    rfl
  · rw [replaceAllAux_congr pat val rest.length rest.length rest
      (Nat.le_refl _) (Nat.le_refl _)]
    rfl

/-- `occursIn pat s` is true when `pat` occurs as a contiguous substring
of `s`. -/
def occursIn (pat : List Char) : List Char → Bool
  | [] => pat.isEmpty
  | c :: rest => startsWithL pat (c :: rest) || occursIn pat rest

/-- `fill` (templating.js lines 9–19): for each key of `vars`, in key
enumeration order, replace every occurrence of the key's token in the
accumulated result by the key's value.  (`vars[key] || ''` is the
identity on string values, since the empty string is replaced by the
empty string; the `!str` guard at line 10 likewise returns the empty
string unchanged, which coincides with running the loop on it.) -/
def fill (s : List Char) (vars : Row) : List Char :=
  vars.foldl (fun acc kv => replaceAll (token kv.1) kv.2 acc) s

theorem startsWithL_refl : ∀ s : List Char, startsWithL s s = true
  | [] => rfl
  | c :: rest => by simp [startsWithL, startsWithL_refl rest]

/-- A single `replace` call substitutes the value verbatim: the inserted
value is not re-scanned, even when it contains the pattern itself. -/
theorem replaceAll_pat (pat val : List Char) (h : pat ≠ []) :
    replaceAll pat val pat = val := by
  cases pat with
  | nil => exact absurd rfl h
  | cons c ps =>
    rw [replaceAll_cons]
    simp only [startsWithL_refl, List.length_cons, Nat.add_sub_cancel,
      List.drop_length, replaceAll_nil, List.append_nil, and_true]
    simp [h]

theorem replaceAll_of_not_occurs (pat val s : List Char)
    (h : occursIn pat s = false) : replaceAll pat val s = s := by
  induction s with
  | nil => rfl
  | cons c rest ih =>
    simp only [occursIn, Bool.or_eq_false_iff] at h
    rw [replaceAll_cons]
    simp only [h.1, and_false, if_false, Bool.false_eq_true]
    rw [ih h.2]

/-- `fill` leaves a string unchanged when none of the row's field tokens
occur in it. -/
theorem fill_of_not_occurs (s : List Char) (vars : Row)
    (h : ∀ kv ∈ vars, occursIn (token kv.1) s = false) :
    fill s vars = s := by
  induction vars with
  | nil => rfl
  | cons kv rest ih =>
    show fill (replaceAll (token kv.1) kv.2 s) rest = s
    rw [replaceAll_of_not_occurs _ _ _ (h kv (List.mem_cons_self kv rest))]
    exact ih fun kv' h' => h kv' (List.mem_cons_of_mem kv h')

/-- C2 counterexample.  With row enumeration order `a, b` and the value
for `a` containing the token of `b`, `fill` substitutes the embedded
token of the later field `b` instead of leaving it verbatim, and
reversing the enumeration order changes the result. -/
theorem fill_rescan_counterexample :
    fill (token ['a']) [(['a'], token ['b']), (['b'], ['X'])] = ['X'] ∧
    fill (token ['a']) [(['b'], ['X']), (['a'], token ['b'])] = token ['b'] ∧
    (['X'] : List Char) ≠ token ['b'] := by
  decide

/-- C2 (amended): substitution processes fields sequentially in the
row's key enumeration order; within one field's pass the substituted
value is inserted verbatim and never re-scanned for that same field's
token, but passes for fields later in the enumeration order do scan
previously substituted values, so a token of a later field embedded in a
row value is substituted rather than left verbatim, and the result can
depend on the enumeration order of the fields. -/
theorem fill_sequential_rescans_later_fields :
    (∀ (s : List Char) (kv : List Char × List Char) (rest : Row),
        fill s (kv :: rest) = fill (replaceAll (token kv.1) kv.2 s) rest) ∧
    (∀ k val : List Char, replaceAll (token k) val (token k) = val) ∧
    (∀ k₁ k₂ v₂ : List Char,
        fill (token k₁) [(k₁, token k₂), (k₂, v₂)] = v₂) := by
  refine ⟨fun s kv rest => rfl, fun k val => replaceAll_pat _ _ (by simp [token]), ?_⟩
  intro k₁ k₂ v₂
  show fill (replaceAll (token k₁) (token k₂) (token k₁)) [(k₂, v₂)] = v₂
  rw [replaceAll_pat _ _ (by simp [token])]
  show replaceAll (token k₂) v₂ (token k₂) = v₂
  exact replaceAll_pat _ _ (by simp [token])

/-- C7 counterexample.  When a row value contains its own field's token,
applying `fill` a second time substitutes the token reintroduced by the
first application, so `fill` is not idempotent. -/
theorem fill_not_idempotent_counterexample :
    fill (fill (token ['a']) [(['a'], token ['a'] ++ ['x'])])
        [(['a'], token ['a'] ++ ['x'])] ≠
      fill (token ['a']) [(['a'], token ['a'] ++ ['x'])] := by
  decide

/-- C7 (amended): substitution is idempotent whenever the first
application's result contains no remaining token of any field of the
row — in particular whenever the row's values reintroduce no tokens;
tokens of fields absent from the row are untouched by both
applications.  (Full idempotence fails when a value embeds its own
field's token, see the counterexample.) -/
theorem fill_idempotent_of_not_occurs (s : List Char) (vars : Row)
    (h : ∀ kv ∈ vars, occursIn (token kv.1) (fill s vars) = false) :
    fill (fill s vars) vars = fill s vars :=
  fill_of_not_occurs (fill s vars) vars h

/-- Witness for C7's amended theorem at a concrete input: row
`a ↦ "w"` on the string `"\x7ba\x7d"`. -/
theorem fill_idempotent_witness :
    fill (fill (token ['a']) [(['a'], ['w'])]) [(['a'], ['w'])] =
      fill (token ['a']) [(['a'], ['w'])] :=
  fill_idempotent_of_not_occurs (token ['a']) [(['a'], ['w'])] (by decide)

/-- The hyphen used as slug separator and collision suffix. -/
def hyph : Char := '-'

/-- One step of slug normalization: ASCII alphanumeric characters are
kept lowercased, spaces are kept for later collapsing, everything else
is removed. -/
def slugifyKeep (c : Char) : Option Char :=
  if c.isAlphanum then some c.toLower
  else if c = ' ' then some ' '
  else none

/-- Collapse runs of spaces into single hyphens; `prevSpace` records
whether the previous character was part of a space run. -/
def collapseSpaces : Bool → List Char → List Char
  | _, [] => []
  | prevSpace, c :: rest =>
    if c = ' ' then
      if prevSpace then collapseSpaces true rest
      else hyph :: collapseSpaces true rest
    else c :: collapseSpaces false rest

/-- Drop leading and trailing spaces. -/
def trimSpaces (s : List Char) : List Char :=
  ((s.dropWhile (· = ' ')).reverse.dropWhile (· = ' ')).reverse

/-- Modelled from the spec: the third-party `slugify` library (not part
of this repository) invoked with `lower: true, strict: true`
(templating.js lines 30–34) — "normalize the seed into a URL-safe
lowercase slug (strip punctuation, collapse whitespace/separators to
hyphens)" (spec §4.4).  Alphanumerics are lowercased and kept, other
characters are stripped, and interior whitespace runs become single
hyphens. -/
def slugify (s : List Char) : List Char :=
  collapseSpaces false (trimSpaces (s.filterMap slugifyKeep))

/-- The candidate sequence checked by `makeUniqueSlug`'s collision loop:
the base slug, then `base-1`, `base-2`, … -/
def slugCandidate (base : List Char) : Nat → List Char
  | 0 => base
  | n + 1 => base ++ hyph :: Nat.toDigits 10 (n + 1)

/-- The `while (await checkExists(finalSlug))` loop of `makeUniqueSlug`
(templating.js lines 41–48), with explicit fuel standing in for the
unbounded iteration count; `none` models non-termination of the source
loop (a predicate that reports every candidate as taken). -/
def slugLoop (check : List Char → Bool) (base : List Char) :
    Nat → Nat → List Char → Option (List Char)
  | 0, _, finalSlug => if check finalSlug then none else some finalSlug
  | fuel + 1, counter, finalSlug =>
    if check finalSlug then
      slugLoop check base fuel (counter + 1) (base ++ hyph :: Nat.toDigits 10 counter)
    else some finalSlug

/-- `makeUniqueSlug` (templating.js lines 27–51).  `check = none` models
passing a `checkExists` argument that is not a function; the `!keyword`
guard at line 28 returns the empty slug for the empty (falsy) keyword. -/
def makeUniqueSlug (fuel : Nat) (keyword : List Char)
    (check : Option (List Char → Bool)) : Option (List Char) :=
  if keyword = [] then some []
  else
    let baseSlug := slugify keyword
    match check with
    | none => some baseSlug
    | some c => slugLoop c baseSlug fuel 1 baseSlug

example : slugify "Foo".data = "foo".data := by decide

example : slugify "seo services".data = "seo-services".data := by decide

theorem slugLoop_first_free (check : List Char → Bool) (base : List Char)
    (n : Nat) (hfirst : ∀ i, i < n → check (slugCandidate base i) = true)
    (hn : check (slugCandidate base n) = false) :
    ∀ (fuel k : Nat), k ≤ n → n - k ≤ fuel →
      slugLoop check base fuel (k + 1) (slugCandidate base k) =
        some (slugCandidate base n) := by
  intro fuel
  induction fuel with
  | zero =>
    intro k hk hfuel
    have hkn : k = n := by omega
    subst hkn
    simp [slugLoop, hn]
  | succ f ih =>
    intro k hk hfuel
    rcases Nat.eq_or_lt_of_le hk with hkn | hkn
    · subst hkn
      simp [slugLoop, hn]
    · have hck : check (slugCandidate base k) = true := hfirst k hkn
      simp only [slugLoop, hck, if_true]
      have : base ++ hyph :: Nat.toDigits 10 (k + 1) = slugCandidate base (k + 1) :=
        rfl
      rw [this]
      exact ih (k + 1) hkn (by omega)

/-- C5 (amended): for every non-empty seed and every existence predicate
that is false on at least one candidate, slug allocation returns the
first candidate in the sequence `base, base-1, base-2, …` for which the
predicate is false, checking candidates sequentially (given fuel
covering the search; the source loop is unbounded).  The empty seed is
the exception forced by the counterexample: it returns the empty slug
without consulting the predicate.  In particular, with a predicate true
exactly on `\x7b"foo", "foo-1"\x7d`, seed `"Foo"` yields `"foo-2"`. -/
theorem makeUniqueSlug_first_free (fuel : Nat) (kw : List Char)
    (check : List Char → Bool) (n : Nat) (hkw : kw ≠ [])
    (hfirst : ∀ i, i < n → check (slugCandidate (slugify kw) i) = true)
    (hn : check (slugCandidate (slugify kw) n) = false) (hfuel : n ≤ fuel) :
    makeUniqueSlug fuel kw (some check) = some (slugCandidate (slugify kw) n) := by
  simp only [makeUniqueSlug, hkw, if_false]
  exact slugLoop_first_free check (slugify kw) n hfirst hn fuel 0
    (Nat.zero_le n) (by omega)

/-- Witness for C5's amended theorem: the spec's own instance — the
predicate true exactly on `foo` and `foo-1`, seed `Foo`, result
`foo-2`. -/
theorem makeUniqueSlug_first_free_witness :
    makeUniqueSlug 10 "Foo".data
        (some fun s => s == "foo".data || s == "foo-1".data) =
      some "foo-2".data :=
  (makeUniqueSlug_first_free 10 "Foo".data
      (fun s => s == "foo".data || s == "foo-1".data) 2 (by decide)
      (by decide) (by decide) (by decide)).trans (by decide)

/-- C5 counterexample.  For the empty seed the `!keyword` guard returns
the empty slug without consulting the predicate, so the returned slug is
not the first candidate on which the predicate is false: the predicate
is true on the returned empty slug, while the candidate `-1` (index 1)
already has the predicate false. -/
theorem makeUniqueSlug_empty_seed_counterexample :
    makeUniqueSlug 5 [] (some fun s => s.isEmpty) = some [] ∧
    (fun s : List Char => s.isEmpty) [] = true ∧
    (fun s : List Char => s.isEmpty) (slugCandidate [] 1) = false := by
  decide

theorem slugLoop_ne_nil (check : List Char → Bool) (base : List Char) :
    ∀ (fuel counter : Nat) (finalSlug : List Char), finalSlug ≠ [] →
      ∀ s, slugLoop check base fuel counter finalSlug = some s → s ≠ [] := by
  intro fuel
  induction fuel with
  | zero =>
    intro counter finalSlug hf s hs
    by_cases hc : check finalSlug
    · simp [slugLoop, hc] at hs
    · simp [slugLoop, hc] at hs
      exact hs ▸ hf
  | succ f ih =>
    intro counter finalSlug hf s hs
    by_cases hc : check finalSlug
    · simp only [slugLoop, hc, if_true] at hs
      refine ih (counter + 1) (base ++ hyph :: Nat.toDigits 10 counter) ?_ s hs
      simp
    · simp [slugLoop, hc] at hs
      exact hs ▸ hf

/-- C6 (amended): a seed whose normalization is non-empty never yields
an empty slug; the empty (falsy) seed always yields the empty slug; and
a non-empty seed whose normalization is empty yields the empty slug
whenever the existence check reports the empty slug as unused — but not
in general (see the counterexample, where the check reports the empty
slug as taken and a suffixed candidate is returned). -/
theorem makeUniqueSlug_empty_slug (fuel : Nat) (kw : List Char)
    (chk : Option (List Char → Bool)) :
    (slugify kw ≠ [] → ∀ s, makeUniqueSlug fuel kw chk = some s → s ≠ []) ∧
    makeUniqueSlug fuel [] chk = some [] ∧
    (∀ check : List Char → Bool, check [] = false → kw ≠ [] →
      slugify kw = [] → makeUniqueSlug fuel kw (some check) = some []) := by
  refine ⟨?_, by simp [makeUniqueSlug], ?_⟩
  · intro hnorm s hs
    by_cases hkw : kw = []
    · subst hkw
      exact absurd rfl hnorm
    · simp only [makeUniqueSlug, hkw, if_false] at hs
      match chk, hs with
      | none, hs =>
        simp only [Option.some.injEq] at hs
        exact hs ▸ hnorm
      | some c, hs =>
        exact slugLoop_ne_nil c (slugify kw) fuel 1 (slugify kw) hnorm s hs
  · intro check hcheck hkw hnorm
    simp only [makeUniqueSlug, hkw, if_false, hnorm]
    cases fuel with
    | zero => simp [slugLoop, hcheck]
    | succ f => simp [slugLoop, hcheck]

/-- Witness for C6's amended theorem: seed `Foo` (non-empty
normalization) yields the non-empty slug `foo`, the empty seed yields
the empty slug, and seed `!!!` (empty normalization) with a check
reporting the empty slug unused yields the empty slug. -/
theorem makeUniqueSlug_empty_slug_witness :
    ("foo".data ≠ ([] : List Char)) ∧
    makeUniqueSlug 3 [] none = some [] ∧
    makeUniqueSlug 3 "!!!".data (some fun _ => false) = some [] :=
  ⟨(makeUniqueSlug_empty_slug 3 "Foo".data none).1 (by decide) "foo".data
      (by decide),
    (makeUniqueSlug_empty_slug 3 [] none).2.1,
    (makeUniqueSlug_empty_slug 3 "!!!".data (some fun _ => false)).2.2
      (fun _ => false) rfl (by decide) (by decide)⟩

/-- C6 counterexample.  Seed `!!!` normalizes to the empty string, yet
with an existence check that reports the empty slug as taken the
allocator returns the non-empty slug `-1`, so an empty normalization
does not always yield the empty slug. -/
theorem makeUniqueSlug_empty_norm_counterexample :
    slugify "!!!".data = [] ∧
    makeUniqueSlug 5 "!!!".data (some fun s => s.isEmpty) =
      some [hyph, '1'] ∧
    ([hyph, '1'] : List Char) ≠ [] := by
  decide

/-- One FAQ entry: a question/answer pair (`q`/`a` in the JS objects). -/
structure FaqItem where
  q : List Char
  a : List Char
deriving DecidableEq

/-- A fragment of the JSON value universe, enough to distinguish the
shapes `buildFaqSchema` can return (`\x7b\x7d` versus `null` versus an
array) and to record the JSON-LD schema it builds. -/
inductive Json where
  | null
  | str (s : List Char)
  | arr (elems : List Json)
  | obj (fields : List (List Char × Json))

/-- The JS truthiness filter `faq.q && faq.a` (templating.js line 63):
a pair is kept only when both fields are non-empty strings. -/
def faqValid (f : FaqItem) : Bool := !f.q.isEmpty && !f.a.isEmpty

/-- The `mainEntity` element built for one valid pair
(templating.js lines 72–79). -/
def faqEntry (f : FaqItem) : Json :=
  .obj [("@type".data, .str "Question".data), ("name".data, .str f.q),
    ("acceptedAnswer".data,
      .obj [("@type".data, .str "Answer".data), ("text".data, .str f.a)])]

/-- `buildFaqSchema` (templating.js lines 58–81). -/
def buildFaqSchema (faqArray : List FaqItem) : Json :=
  if faqArray.isEmpty then .obj []
  else
    let validFaqs := faqArray.filter faqValid
    if validFaqs.isEmpty then .obj []
    else
      .obj [("@context".data, .str "https://schema.org".data),
        ("@type".data, .str "FAQPage".data),
        ("mainEntity".data, .arr (validFaqs.map faqEntry))]

/-- C8: the FAQ builder silently excludes every pair missing either
field and returns an empty object — not `null`, not an array — whenever
zero valid pairs remain; `buildFaqSchema []` and
`buildFaqSchema [\x7bq:"", a:""\x7d]` both yield the empty object, and a
list with exactly one valid pair yields an object whose `mainEntity`
array holds exactly one question/answer entry. -/
theorem buildFaqSchema_spec :
    (∀ faqs : List FaqItem, (∀ f ∈ faqs, faqValid f = false) →
      buildFaqSchema faqs = .obj []) ∧
    buildFaqSchema [] = .obj [] ∧
    buildFaqSchema [⟨[], []⟩] = .obj [] ∧
    buildFaqSchema [⟨"A?".data, "B.".data⟩] =
      .obj [("@context".data, .str "https://schema.org".data),
        ("@type".data, .str "FAQPage".data),
        ("mainEntity".data, .arr [faqEntry ⟨"A?".data, "B.".data⟩])] ∧
    Json.obj [] ≠ Json.null ∧
    ∀ elems, Json.obj [] ≠ Json.arr elems := by
  refine ⟨?_, rfl, rfl, rfl,
    fun h => Json.noConfusion h, fun elems h => Json.noConfusion h⟩
  intro faqs h
  have hfilter : faqs.filter faqValid = [] := by
    rw [List.filter_eq_nil_iff]
    intro f hf
    simp [h f hf]
  cases faqs with
  | nil => rfl
  | cons f rest => simp [buildFaqSchema, hfilter]

/-- Witness for C8: a pair with a question but an empty answer is
excluded, leaving the empty object. -/
theorem buildFaqSchema_spec_witness :
    buildFaqSchema [⟨"x".data, []⟩] = Json.obj [] :=
  buildFaqSchema_spec.1 [⟨"x".data, []⟩] (by decide)

/-- C10: when the existence-check argument is not a function, the
allocator returns the normalized base slug directly — for any fuel,
with no candidate ever checked; the `typeof checkExists !== 'function'`
early return (templating.js lines 36–39). -/
theorem makeUniqueSlug_no_check (fuel : Nat) (kw : List Char) :
    makeUniqueSlug fuel kw none = some (slugify kw) := by
  by_cases hkw : kw = []
  · subst hkw
    rfl
  · simp [makeUniqueSlug, hkw]

/-- A generation template (request body JSON).  Absent string fields are
modelled as the empty list, matching the `template.title || ''`
defaulting in `processTemplate` (templating.js lines 127–129). -/
structure Template where
  templateKey : List Char
  title : List Char
  metaDescription : List Char
  h1 : List Char
  «variables» : List (List Char)
  sections : Option (List (List Char))
  faq : Option (List FaqItem)

/-- The result object of `validateTemplate`. -/
structure TemplateValidation where
  isValid : Bool
  missing : List (List Char)

/-- `validateTemplate` (templating.js lines 89–115); the guards for a
missing `variables` array and a non-array header list are discharged by
the types. -/
def validateTemplate (t : Template) (csvHeaders : List (List Char)) :
    TemplateValidation :=
  let missing := t.«variables».filter fun v => !(csvHeaders.contains v)
  { isValid := missing.isEmpty, missing := missing }

/-- The first field's value of a row (`vars[Object.keys(vars)[0]]`,
with `undefined` for the empty object modelled as the empty string). -/
def firstValue : Row → List Char
  | [] => []
  | (_, v) :: _ => v

/-- `vars.keyword || vars[Object.keys(vars)[0]] || ''`
(templating.js line 152). -/
def primaryKeyword (vars : Row) : List Char :=
  match vars.lookup "keyword".data with
  | some v => if v = [] then firstValue vars else v
  | none => firstValue vars

/-- The object assembled by `processTemplate` (templating.js
lines 124–159). -/
structure Processed where
  title : List Char
  metaDescription : List Char
  h1 : List Char
  sections : List (List Char)
  faq : List FaqItem
  templateKey : List Char
  faqSchema : Json
  slug : List Char

/-- `processTemplate` (templating.js lines 124–159).  `none` models a
failing slug allocation (the only fallible step here: an existence
check that errors or never reports a free candidate), which the
orchestrator's per-row `catch` turns into a row error. -/
def processTemplate (fuel : Nat) (t : Template) (vars : Row)
    (checkExists : List Char → Bool) : Option Processed :=
  let faq := (t.faq.getD []).map fun f => FaqItem.mk (fill f.q vars) (fill f.a vars)
  match makeUniqueSlug fuel (primaryKeyword vars) (some checkExists) with
  | none => none
  | some slug =>
    some
      { title := fill t.title vars
        metaDescription := fill t.metaDescription vars
        h1 := fill t.h1 vars
        sections := (t.sections.getD []).map fun s => fill s vars
        faq := faq
        templateKey := if t.templateKey = [] then "default".data else t.templateKey
        faqSchema := buildFaqSchema faq
        slug := slug }

/-- A persisted `GeneratedPage` document (models/Page.js). -/
structure Page where
  slug : List Char
  title : List Char
  metaDescription : List Char
  h1 : List Char
  sections : List (List Char)
  faq : List FaqItem
  faqSchema : Json
  vars : Row
  templateKey : List Char

/-- `page.save()`: the mongoose schema validation of models/Page.js
(`required: true` on the top-level string paths, which rejects empty
strings) together with the unique index on `slug`, which rejects a
duplicate insert.  `none` is a rejected save. -/
def savePage (store : List Page) (p : Page) : Option (List Page) :=
  if p.slug ≠ [] ∧ p.title ≠ [] ∧ p.metaDescription ≠ [] ∧ p.h1 ≠ [] ∧
      p.templateKey ≠ [] ∧ p.slug ∉ store.map Page.slug then
    some (store ++ [p])
  else none

/-- The `results` accumulator of `POST /api/generate`
(admin.js lines 129–134). -/
structure GenSummary where
  success : Nat
  skipped : Nat
  errors : Nat
  pages : List (List Char × List Char)

def emptySummary : GenSummary := ⟨0, 0, 0, []⟩

/-- The response of `POST /api/generate`: the 400 for an empty row
list, the 400 carrying the missing-variables report, or the 200 with
the batch summary. -/
inductive GenResponse where
  | noRows
  | invalidTemplate (missing : List (List Char))
  | ok (results : GenSummary)

/-- The per-row `checkSlugExists` closure (admin.js lines 142–145):
truthiness of `Page.findOne(\x7b slug \x7d)` over the live store. -/
def checkSlugExists (store : List Page) (slug : List Char) : Bool :=
  (store.map Page.slug).contains slug

/-- The `pageData` document assembled from a processed row
(admin.js lines 154–164). -/
def pageOf (p : Processed) (row : Row) : Page :=
  { slug := p.slug
    title := p.title
    metaDescription := p.metaDescription
    h1 := p.h1
    sections := p.sections
    faq := p.faq
    faqSchema := p.faqSchema
    vars := row
    templateKey := p.templateKey }

/-- One iteration of the row loop of `POST /api/generate` (admin.js
lines 137–182): process the row against the current store, persist on
success, and update the summary; any failure increments `errors` and
leaves the store untouched. -/
def generateStep (t : Template) (fuel : Nat)
    (acc : List Page × GenSummary) (row : Row) : List Page × GenSummary :=
  let store := acc.1
  let res := acc.2
  match processTemplate fuel t row (checkSlugExists store) with
  | none => (store, { res with errors := res.errors + 1 })
  | some p =>
    match savePage store (pageOf p row) with
    | none => (store, { res with errors := res.errors + 1 })
    | some store' =>
      (store', { res with
        success := res.success + 1
        pages := res.pages ++ [(p.slug, p.title)] })

/-- `POST /api/generate` (admin.js lines 95–197): reject an empty row
list, validate the template against the first row's keys, and otherwise
run the row loop sequentially over the store. -/
def generate (fuel : Nat) (store : List Page) (rows : List Row)
    (t : Template) : GenResponse × List Page :=
  match rows with
  | [] => (.noRows, store)
  | r0 :: rest =>
    let v := validateTemplate t (r0.map Prod.fst)
    if v.isValid then
      let out := (r0 :: rest).foldl (generateStep t fuel) (store, emptySummary)
      (.ok out.2, out.1)
    else (.invalidTemplate v.missing, store)

theorem savePage_eq_some (store : List Page) (p : Page) (store' : List Page)
    (h : savePage store p = some store') :
    store' = store ++ [p] ∧ p.slug ∉ store.map Page.slug := by
  unfold savePage at h
  split at h
  · rename_i hcond
    cases h
    exact ⟨rfl, hcond.2.2.2.2.2⟩
  · cases h

/-- The row loop appends exactly the successfully persisted pages to the
store and accounts every row as either a success or an error, recording
each persisted page's slug/title pair in the summary. -/
theorem generate_fold (t : Template) (fuel : Nat) :
    ∀ (rws : List Row) (store : List Page) (res : GenSummary),
      ∃ new : List Page,
        rws.foldl (generateStep t fuel) (store, res) =
          (store ++ new,
            { success := res.success + new.length
              skipped := res.skipped
              errors := res.errors + (rws.length - new.length)
              pages := res.pages ++ new.map fun p => (p.slug, p.title) }) ∧
        new.length ≤ rws.length := by
  intro rws
  induction rws with
  | nil =>
    intro store res
    exact ⟨[], by simp, by simp⟩
  | cons r rest ih =>
    intro store res
    rw [List.foldl_cons]
    cases hp : processTemplate fuel t r (checkSlugExists store) with
    | none =>
      obtain ⟨new, heq, hlen⟩ := ih store { res with errors := res.errors + 1 }
      refine ⟨new, ?_, by simpa using Nat.le_succ_of_le hlen⟩
      simp only [generateStep, hp]
      rw [heq]
      simp only [Prod.mk.injEq, GenSummary.mk.injEq, List.length_cons,
        true_and, and_true]
      omega
    | some p =>
      simp only [generateStep, hp]
      cases hs : savePage store (pageOf p r) with
      | none =>
        obtain ⟨new, heq, hlen⟩ := ih store { res with errors := res.errors + 1 }
        refine ⟨new, ?_, by simpa using Nat.le_succ_of_le hlen⟩
        rw [heq]
        simp only [Prod.mk.injEq, GenSummary.mk.injEq, List.length_cons,
          true_and, and_true]
        omega
      | some store' =>
        obtain ⟨hstore', -⟩ := savePage_eq_some _ _ _ hs
        subst hstore'
        obtain ⟨new, heq, hlen⟩ := ih (store ++ [pageOf p r])
          { res with
            success := res.success + 1
            pages := res.pages ++ [(p.slug, p.title)] }
        refine ⟨pageOf p r :: new, ?_, by simpa using Nat.succ_le_succ hlen⟩
        rw [heq]
        simp only [Prod.mk.injEq, GenSummary.mk.injEq, List.length_cons,
          List.append_assoc, List.singleton_append, List.map_cons, pageOf,
          true_and, and_true]
        omega

/-- C3: for a batch with a valid template, every row is accounted as
either one success or one per-row error (no row aborts the batch: the
response is always the `ok` summary), the number of pages persisted by
the batch is `rows.length - errors`, and the summary's `pages` field
lists exactly the `(slug, title)` pair of every persisted row, in
order. -/
theorem generate_valid_summary (fuel : Nat) (store : List Page) (r0 : Row)
    (rest : List Row) (t : Template)
    (hvalid : (validateTemplate t (r0.map Prod.fst)).isValid = true) :
    ∃ (res : GenSummary) (new : List Page),
      generate fuel store (r0 :: rest) t = (.ok res, store ++ new) ∧
      res.success + res.errors = (r0 :: rest).length ∧
      res.success = new.length ∧
      res.errors = (r0 :: rest).length - new.length ∧
      res.pages = new.map fun p => (p.slug, p.title) := by
  obtain ⟨new, heq, hlen⟩ := generate_fold t fuel (r0 :: rest) store emptySummary
  refine ⟨{ success := emptySummary.success + new.length
            skipped := emptySummary.skipped
            errors := emptySummary.errors + ((r0 :: rest).length - new.length)
            pages := emptySummary.pages ++ new.map fun p => (p.slug, p.title) },
    new, ?_, ?_, ?_, ?_, ?_⟩
  · simp only [generate, hvalid, if_true]
    rw [heq]
  · simp only [emptySummary, List.length_cons] at hlen ⊢
    omega
  · simp [emptySummary]
  · simp [emptySummary]
  · simp [emptySummary]

/-- A valid sample template: title `\x7bkeyword\x7d`, requiring only the
`keyword` column. -/
def keywordTemplate : Template :=
  { templateKey := "local-seo".data
    title := token "keyword".data
    metaDescription := "d".data
    h1 := "h".data
    «variables» := ["keyword".data]
    sections := none
    faq := none }

/-- A template requiring the `city` and `keyword` columns, with all
content fields empty. -/
def cityKeywordTemplate : Template :=
  { templateKey := []
    title := []
    metaDescription := []
    h1 := []
    «variables» := ["city".data, "keyword".data]
    sections := none
    faq := none }

/-- Witness for C3: a two-row batch over an empty store with a valid
single-variable template. -/
theorem generate_valid_summary_witness :
    ∃ (res : GenSummary) (new : List Page),
      generate 10 []
          [[("keyword".data, "a".data)], [("keyword".data, "a".data)]]
          keywordTemplate =
        (.ok res, [] ++ new) ∧
      res.success + res.errors =
        ([[("keyword".data, "a".data)], [("keyword".data, "a".data)]] :
          List Row).length ∧
      res.success = new.length ∧
      res.errors =
        ([[("keyword".data, "a".data)], [("keyword".data, "a".data)]] :
          List Row).length - new.length ∧
      res.pages = new.map fun p => (p.slug, p.title) :=
  generate_valid_summary 10 [] [("keyword".data, "a".data)]
    [[("keyword".data, "a".data)]] keywordTemplate (by decide)

/-- C4: when the template fails validation against the header set
derived from the first row, the batch fails fast with the
missing-variables report and the store is unchanged — no row is
processed and no page is persisted. -/
theorem generate_invalid_template (fuel : Nat) (store : List Page) (r0 : Row)
    (rest : List Row) (t : Template)
    (hinvalid : (validateTemplate t (r0.map Prod.fst)).isValid = false) :
    generate fuel store (r0 :: rest) t =
      (.invalidTemplate (validateTemplate t (r0.map Prod.fst)).missing,
        store) := by
  simp [generate, hinvalid]

/-- Witness for C4: the spec's own instance — template variables
`city, keyword` against the single header `keyword` report
`missing = [city]`, and the store stays empty. -/
theorem generate_invalid_template_witness :
    generate 5 [] [[("keyword".data, "x".data)]] cityKeywordTemplate =
      (.invalidTemplate ["city".data], []) :=
  (generate_invalid_template 5 [] [("keyword".data, "x".data)] []
    cityKeywordTemplate (by decide)).trans rfl

theorem generate_fold_nodup (t : Template) (fuel : Nat) :
    ∀ (rws : List Row) (store : List Page) (res : GenSummary),
      (store.map Page.slug).Nodup →
      (((rws.foldl (generateStep t fuel) (store, res)).1).map Page.slug).Nodup := by
  intro rws
  induction rws with
  | nil => intro store res h; exact h
  | cons r rest ih =>
    intro store res h
    rw [List.foldl_cons]
    cases hp : processTemplate fuel t r (checkSlugExists store) with
    | none =>
      simp only [generateStep, hp]
      exact ih store _ h
    | some p =>
      simp only [generateStep, hp]
      cases hs : savePage store (pageOf p r) with
      | none => exact ih store _ h
      | some store' =>
        obtain ⟨hstore', hnotmem⟩ := savePage_eq_some _ _ _ hs
        subst hstore'
        refine ih _ _ ?_
        rw [List.map_append, List.map_singleton, List.nodup_append]
        refine ⟨h, List.nodup_singleton _, ?_⟩
        intro a ha hb
        rw [List.mem_singleton] at hb
        subst hb
        exact hnotmem ha

/-- C1: a generation batch preserves global slug uniqueness — for any
store whose slugs are pairwise distinct, the store after the batch
extends the old store and its slugs are still pairwise distinct, so the
slugs persisted by the batch are pairwise distinct and distinct from
every slug already in the store.  Each row's `checkSlugExists` closure
queries the live store, observing every page committed by earlier rows
of the same batch, and the unique index modelled in `savePage` rejects
any duplicate that would survive allocation. -/
theorem generate_slug_unique (fuel : Nat) (store : List Page)
    (rows : List Row) (t : Template) (h : (store.map Page.slug).Nodup) :
    (∃ new : List Page, (generate fuel store rows t).2 = store ++ new) ∧
    (((generate fuel store rows t).2).map Page.slug).Nodup := by
  cases rows with
  | nil => exact ⟨⟨[], by simp [generate]⟩, by simpa [generate] using h⟩
  | cons r0 rest =>
    by_cases hv : (validateTemplate t (r0.map Prod.fst)).isValid = true
    · constructor
      · obtain ⟨new, heq, -⟩ := generate_fold t fuel (r0 :: rest) store emptySummary
        exact ⟨new, by simp only [generate, hv, if_true]; rw [heq]⟩
      · simp only [generate, hv, if_true]
        exact generate_fold_nodup t fuel (r0 :: rest) store emptySummary h
    · rw [Bool.not_eq_true] at hv
      refine ⟨⟨[], ?_⟩, ?_⟩
      · simp [generate, hv]
      · simpa [generate, hv] using h

/-- Witness for C1: two rows with the same keyword over the empty
store. -/
theorem generate_slug_unique_witness :
    (∃ new : List Page,
      (generate 10 []
          [[("keyword".data, "a".data)], [("keyword".data, "a".data)]]
          keywordTemplate).2 = [] ++ new) ∧
    (((generate 10 []
        [[("keyword".data, "a".data)], [("keyword".data, "a".data)]]
        keywordTemplate).2).map Page.slug).Nodup :=
  generate_slug_unique 10 []
    [[("keyword".data, "a".data)], [("keyword".data, "a".data)]]
    keywordTemplate (by simp)

example :
    ((generate 10 []
        [[("keyword".data, "a".data)], [("keyword".data, "a".data)]]
        keywordTemplate).2).map Page.slug = ["a".data, "a-1".data] := by
  decide

/-- One entry of the `TEMPLATE_MAP` lookup table (pages.js
lines 606–613). -/
structure TemplateDef where
  variant : List Char
  view : Option (List Char)
  legacyInline : Bool

/-- The `minimal` entry, used as the fallback for unknown keys. -/
def minimalDef : TemplateDef :=
  { variant := "basic".data
    view := some "page_template_minimal".data
    legacyInline := false }

/-- The fixed `templateKey → render variant` table (pages.js
lines 606–613). -/
def TEMPLATE_MAP : List (List Char × TemplateDef) :=
  [("minimal".data, minimalDef),
    ("local-seo".data,
      { variant := "basic".data
        view := some "page_template_minimal".data
        legacyInline := false }),
    ("service-landing".data,
      { variant := "service".data
        view := some "page_template_modern_blue".data
        legacyInline := false }),
    ("modern-blue".data,
      { variant := "service".data
        view := some "page_template_modern_blue".data
        legacyInline := false }),
    ("dark-pastel".data,
      { variant := "dark".data
        view := some "page_template_dark_pastel".data
        legacyInline := false }),
    ("faq-rich".data,
      { variant := "faq".data
        view := none
        legacyInline := true })]

/-- The outcome of `GET /:slug` (pages.js lines 618–656): either the
stable not-found document for the requested slug, or a rendered
document for the resolved variant, the page, and its related pages.
The function is total: absence of the page yields `notFound`, never a
fault. -/
inductive RenderResult where
  | notFound (slug : List Char)
  | rendered (tdef : TemplateDef) (page : Page) (related : List Page)

/-- `GET /:slug` (pages.js lines 618–656): look the page up by slug;
absent pages yield the not-found document; otherwise resolve the
variant through `TEMPLATE_MAP` with
`TEMPLATE_MAP[page.templateKey] || TEMPLATE_MAP['minimal']` and fetch
up to six related pages sharing the template key (excluding the page
itself). -/
def renderSlug (store : List Page) (slug : List Char) : RenderResult :=
  match store.find? (fun p => p.slug == slug) with
  | none => .notFound slug
  | some page =>
    let tdef := (TEMPLATE_MAP.lookup page.templateKey).getD minimalDef
    let related := (store.filter fun p =>
      p.templateKey == page.templateKey && p.slug != page.slug).take 6
    .rendered tdef page related

/-- C9: rendering a slug for which no page exists returns the stable
not-found document for that slug (the dispatcher is a total function —
absence is never propagated as a fault), and rendering any stored page
whose `templateKey` is absent from the key→variant table succeeds,
falling back to the default `minimal` variant. -/
theorem renderSlug_spec (store : List Page) (s : List Char) (page : Page) :
    ((∀ p ∈ store, p.slug ≠ s) → renderSlug store s = .notFound s) ∧
    (store.find? (fun p => p.slug == s) = some page →
      TEMPLATE_MAP.lookup page.templateKey = none →
      renderSlug store s =
        .rendered minimalDef page
          ((store.filter fun p =>
            p.templateKey == page.templateKey && p.slug != page.slug).take 6)) := by
  constructor
  · intro h
    have hfind : store.find? (fun p => p.slug == s) = none := by
      rw [List.find?_eq_none]
      intro p hp
      simpa using h p hp
    simp only [renderSlug, hfind]
  · intro hfind hlookup
    simp only [renderSlug, hfind, hlookup, Option.getD_none]

/-- A stored page whose `templateKey` matches no entry of the variant
table. -/
def strangePage : Page :=
  { slug := "p".data
    title := "T".data
    metaDescription := "d".data
    h1 := "h".data
    sections := []
    faq := []
    faqSchema := Json.obj []
    vars := []
    templateKey := "weird".data }

/-- Witness for C9: over a one-page store, a missing slug renders the
not-found document, and the stored page with unknown key `weird`
renders with the `minimal` fallback variant. -/
theorem renderSlug_spec_witness :
    renderSlug [strangePage] "q".data = .notFound "q".data ∧
    renderSlug [strangePage] "p".data =
      .rendered minimalDef strangePage
        (([strangePage].filter fun p =>
          p.templateKey == strangePage.templateKey &&
            p.slug != strangePage.slug).take 6) :=
  ⟨(renderSlug_spec [strangePage] "q".data strangePage).1 (by decide),
    (renderSlug_spec [strangePage] "p".data strangePage).2 rfl rfl⟩

end SeoTool
